import Mathlib

/-!
Shallow embedding of the facette time-series consolidation core
(`pkg/plot/plot.go`, `pkg/plot/func.go`) and of the query-preparation
step of `pkg/server/library_plot.go`, together with theorems checking
the natural-language specification against it.

Modelling conventions:
* Go `float64` plot values are embedded as `Value`: either `nan` or a
  rational number.  All arithmetic the embedded code performs on
  non-NaN values (sums, averages, linear interpolation) is exact in ℚ;
  NaN propagation and NaN-comparison semantics (comparisons with NaN
  are false) are modelled explicitly.
* Go `time.Time` and `time.Duration` are embedded as ℤ (nanoseconds).
  Go's integer division on them truncates toward zero, i.e. `Int.tdiv`.
* Go functions that can return an `error` or panic at runtime return
  `Res α`: `.error msg` for an error return, `.panic msg` for a runtime
  panic (out-of-range slice index, `make` with negative length).
* Go maps `map[string]Value` are embedded as association lists with a
  write operation `mapSet`; only `lookup` observations matter.
-/

/-- A Go float64 plot value: IEEE NaN or a real number (exact ℚ). -/
inductive Value where
  | nan : Value
  | num (q : ℚ) : Value
deriving DecidableEq, Repr

/-- `Value.IsNaN` from plot.go: reports whether the value is NaN. -/
def Value.isNaN : Value → Bool
  | .nan => true
  | .num _ => false

/-- Whether a value is a real (non-NaN) number. -/
def Value.isNum : Value → Bool
  | .nan => false
  | .num _ => true

/-- The rational carried by a non-NaN value (0 for NaN). -/
def Value.toRat : Value → ℚ
  | .nan => 0
  | .num q => q

/-- Go float64 addition restricted to the embedded values: NaN absorbs. -/
def vadd : Value → Value → Value
  | .num a, .num b => .num (a + b)
  | _, _ => .nan

/-- Go float64 division as used by the embedded code.  NaN operands give
NaN.  The only division by zero the embedded code can perform is `0/0`
(average of zero contributors), which is NaN in IEEE arithmetic, so the
zero-divisor case is mapped to NaN. -/
def vdiv : Value → Value → Value
  | .num a, .num b => if b = 0 then .nan else .num (a / b)
  | _, _ => .nan

/-- Go float64 `<`: comparisons involving NaN are false. -/
def vlt : Value → Value → Bool
  | .num a, .num b => decide (a < b)
  | _, _ => false

/-- Go float64 `>`: comparisons involving NaN are false. -/
def vgt : Value → Value → Bool
  | .num a, .num b => decide (b < a)
  | _, _ => false

/-- A graph plot (plot.go): a timestamped value.  `Time` is in
nanoseconds since the epoch. -/
structure Plot where
  Time : ℤ
  Value : Value
deriving DecidableEq, Repr

/-- A series of plots (plot.go).  `Summary` is the summary map,
embedded as an association list. -/
structure Series where
  Name : String
  Plots : List Plot
  Step : ℤ
  Summary : List (String × Value)
deriving DecidableEq, Repr

/-- Write a key into a summary map: replaces any previous binding.
Only `List.lookup` observations of the map matter. -/
def mapSet (m : List (String × Value)) (k : String) (v : Value) :
    List (String × Value) :=
  (k, v) :: m.filter (fun kv => kv.1 ≠ k)

/-- func.go consolidation-type constants (iota, starting at 1). -/
def ConsolidateAverage : ℕ := 1

/-- `ConsolidateLast` constant from func.go. -/
def ConsolidateLast : ℕ := 2

/-- `ConsolidateMax` constant from func.go. -/
def ConsolidateMax : ℕ := 3

/-- `ConsolidateMin` constant from func.go. -/
def ConsolidateMin : ℕ := 4

/-- `ConsolidateSum` constant from func.go. -/
def ConsolidateSum : ℕ := 5

/-- func.go operation-type constants (iota, starting at 1). -/
def OperTypeNone : ℕ := 1

/-- `OperTypeAverage` constant from func.go. -/
def OperTypeAverage : ℕ := 2

/-- `OperTypeSum` constant from func.go. -/
def OperTypeSum : ℕ := 3

/-- A consolidation bucket (func.go `plotBucket`). -/
structure plotBucket where
  startTime : ℤ
  plots : List Plot
deriving DecidableEq, Repr

/-- Outcome of a Go function that may return an error or panic. -/
inductive Res (α : Type) where
  | error (msg : String)
  | panic (msg : String)
  | ok (val : α)
deriving DecidableEq, Repr

/-- Whether a `Res` is an error return. -/
def Res.isError {α : Type} : Res α → Bool
  | .error _ => true
  | _ => false

/-- Whether a `Res` is a normal return. -/
def Res.isOk {α : Type} : Res α → Bool
  | .ok _ => true
  | _ => false

/-- Whether a `Res` is a runtime panic. -/
def Res.isPanic {α : Type} : Res α → Bool
  | .panic _ => true
  | _ => false

/-- Look a key up in the summary map of a successful result. -/
def resLookup (r : Res (List (String × Value))) (k : String) : Option Value :=
  match r with
  | .ok m => m.lookup k
  | _ => none

/-- `plotBucket.Consolidate` from func.go: collapse a bucket's member
plots into one plot according to the consolidation type.

* AVERAGE sums all member values with float addition (NaN is *not*
  skipped, so any NaN member makes the sum NaN) and divides by the
  member count; the output time is the first member's time for a
  single-member bucket, otherwise the first member's time plus half
  the (truncated) distance to the last member's time.
* SUM sums all member values (NaN propagating); time of last member.
* LAST returns the last member verbatim.
* MAX/MIN keep the running extreme, replacing it whenever it is NaN
  or the member is a larger/smaller real value.
* An empty bucket, or an unknown consolidation type, yields
  `{value: NaN, time: bucket.startTime}`. -/
def plotBucket.Consolidate (bucket : plotBucket) (consolidationType : ℕ) : Plot :=
  let init : Plot := ⟨bucket.startTime, Value.nan⟩
  let bucketCount := bucket.plots.length
  if bucketCount = 0 then init
  else if consolidationType = ConsolidateAverage then
    let sum := bucket.plots.foldl (fun acc p => vadd acc p.Value) (Value.num 0)
    -- sumCount is incremented for every member, so it equals bucketCount
    let value := vdiv sum (Value.num bucketCount)
    let time :=
      if bucketCount = 1 then (bucket.plots.headD init).Time
      else (bucket.plots.headD init).Time +
        Int.tdiv ((bucket.plots.getLastD init).Time - (bucket.plots.headD init).Time) 2
    ⟨time, value⟩
  else if consolidationType = ConsolidateSum then
    ⟨(bucket.plots.getLastD init).Time,
     bucket.plots.foldl (fun acc p => vadd acc p.Value) (Value.num 0)⟩
  else if consolidationType = ConsolidateLast then
    bucket.plots.getLastD init
  else if consolidationType = ConsolidateMax then
    bucket.plots.foldl
      (fun cur p => if (!(p.Value.isNaN) && vgt p.Value cur.Value) || cur.Value.isNaN
        then p else cur) init
  else if consolidationType = ConsolidateMin then
    bucket.plots.foldl
      (fun cur p => if (!(p.Value.isNaN) && vlt p.Value cur.Value) || cur.Value.isNaN
        then p else cur) init
  else init

/-- Go truncating conversion of a (here: exact, rational) float to
int64: truncation toward zero. -/
def ratTrunc (q : ℚ) : ℤ := Int.tdiv q.num q.den

/-- The bucket index computed in ConsolidateSeries (func.go):
`int64(float64(plot.Time-startTime)/float64(step) + 1) - 1`.
The float arithmetic is embedded exactly in ℚ.  (Go's float division
by a zero `step` yields ±Inf/NaN whose int64 conversion is
implementation-specific; ℚ division by zero gives 0 here, and no
claim depends on that degenerate sub-nanosecond-step case.) -/
def bucketIndexOf (startTime step t : ℤ) : ℤ :=
  ratTrunc (((t - startTime : ℤ) : ℚ) / ((step : ℤ) : ℚ) + 1) - 1

/-- The member plots of bucket `b` for one series (func.go plot
propagation loop): plots inside `[startTime, endTime]` whose computed
bucket index is `b`, in series order.  Indices `≥ sample` are skipped
by the code and indices of kept plots are never negative, so grouping
by the index value is the same partition the Go loop builds. -/
def bucketPlots (startTime endTime step : ℤ) (b : ℕ) (plots : List Plot) :
    List Plot :=
  plots.filter (fun p =>
    decide (startTime ≤ p.Time) && decide (p.Time ≤ endTime) &&
      (bucketIndexOf startTime step p.Time == (b : ℤ)))

/-- Consolidation of one input series (the per-series body of
ConsolidateSeries): `sampleEff` buckets starting at
`startTime + b*step`, each consolidated to one plot; the produced
Series has zero-valued `Name`/`Step` and a fresh empty summary map. -/
def consolidateOne (startTime endTime step : ℤ) (sampleEff : ℕ) (ct : ℕ)
    (s : Series) : Series :=
  { Name := ""
    Plots := (List.range sampleEff).map (fun (b : ℕ) =>
      plotBucket.Consolidate
        ⟨startTime + (b : ℤ) * step, bucketPlots startTime endTime step b s.Plots⟩ ct)
    Step := 0
    Summary := [] }

/-- Maximum plot count over the input series (func.go maxLength loop). -/
def maxPlotsLength (seriesList : List Series) : ℕ :=
  seriesList.foldl (fun acc s => max acc s.Plots.length) 0

/-- `ConsolidateSeries` from func.go.

Checks, in source order: `sample == 0` → error; empty series list →
error.  A negative `sample` passes both checks and reaches
`make([]plotBucket, sample)` inside the per-series loop, which is a
Go runtime panic (`make` with negative length); the loop body runs
because the list is non-empty.  Otherwise the effective sample count
is capped at the longest input series' plot count when that maximum
is positive and smaller than `sample`, the step is the truncated
duration division `(endTime-startTime)/sampleEff`, and each series is
independently bucketed and consolidated. -/
def consolidateSeries (seriesList : List Series) (startTime endTime : ℤ)
    (sample : ℤ) (consolidationType : ℕ) : Res (List Series) :=
  if sample = 0 then .error "sample must be greater than zero"
  else if seriesList.length = 0 then .error "no series provided"
  else if sample < 0 then .panic "makeslice: len out of range"
  else
    let maxLength := maxPlotsLength seriesList
    let sampleEff := if 0 < maxLength ∧ (maxLength : ℤ) < sample
      then maxLength else sample.toNat
    let step := Int.tdiv (endTime - startTime) (sampleEff : ℤ)
    .ok (seriesList.map (consolidateOne startTime endTime step sampleEff consolidationType))

/-- `Series.Downsample` from plot.go: delegates to ConsolidateSeries
with a one-element list, discards the error (`consolidatedSeries, _ :=`)
and indexes `consolidatedSeries[0]`.  When ConsolidateSeries returned
an error the result slice is nil and the indexing panics. -/
def Series.Downsample (series : Series) (startTime endTime : ℤ)
    (sample : ℤ) (consolidationType : ℕ) : Res Series :=
  match consolidateSeries [series] startTime endTime sample consolidationType with
  | .ok (x :: _) => .ok x
  | .ok [] => .panic "index out of range"
  | .error _ => .panic "index out of range"
  | .panic msg => .panic msg

/-- Option-valued map used to embed loops whose body may panic:
`none` models a Go runtime panic (out-of-range index). -/
def mapOption {α β : Type} : List α → (α → Option β) → Option (List β)
  | [], _ => some []
  | a :: rest, f =>
    match f a with
    | none => none
    | some b =>
      match mapOption rest f with
      | none => none
      | some bs => some (b :: bs)

/-- Inner accumulation loop of `operSeries` (func.go) at point index
`i`: walks the series list, skipping NaN contributors and adding the
others to the running sum while counting them.  `none` models the Go
panic when some series is shorter than the first one
(`series.Plots[plotIndex]` out of range). -/
def operPointSum (i : ℕ) : List Series → ℚ × ℕ → Option (ℚ × ℕ)
  | [], acc => some acc
  | s :: rest, (sum, n) =>
    match s.Plots[i]? with
    | none => none
    | some p =>
      match p.Value with
      | .nan => operPointSum i rest (sum, n)
      | .num q => operPointSum i rest (sum + q, n + 1)

/-- `operSeries` from func.go: combine the series point-wise.  The
point count is taken from the first series; at each index the value
starts from the zero value, accumulates non-NaN contributors, becomes
NaN when none contributed, and is divided by the contributor count for
the AVERAGE operation; the timestamp is copied from the first series.
The produced Series has empty name/step/summary. -/
def operSeries (seriesList : List Series) (operType : ℕ) : Res Series :=
  match seriesList with
  | [] => .error "no series provided"
  | s0 :: rest =>
    let plotsCount := s0.Plots.length
    match mapOption (List.range plotsCount) (fun i =>
      match s0.Plots[i]? with
      | none => none
      | some p0 =>
        match operPointSum i (s0 :: rest) (0, 0) with
        | none => none
        | some (sum, n) =>
          some (⟨p0.Time,
            if n = 0 then Value.nan
            else if operType = OperTypeAverage then Value.num (sum / (n : ℚ))
            else Value.num sum⟩ : Plot)) with
    | none => .panic "index out of range"
    | some plots => .ok ⟨"", plots, 0, []⟩

/-- `AverageSeries` from func.go. -/
def AverageSeries (seriesList : List Series) : Res Series :=
  operSeries seriesList OperTypeAverage

/-- `SumSeries` from func.go. -/
def SumSeries (seriesList : List Series) : Res Series :=
  operSeries seriesList OperTypeSum

/-- The non-NaN contributors at point index `i` : the reference for
the refinement proof about `operSeries` (spec §4.2): at every index
the non-NaN contributors are collected; the value is NaN when there
are none, their sum for SUM, the sum divided by their count for
AVERAGE; the timestamp comes from the first series. -/
def contribAt (seriesList : List Series) (i : ℕ) : List ℚ :=
  seriesList.filterMap (fun s =>
    match (s.Plots.getD i ⟨0, Value.nan⟩).Value with
    | .nan => none
    | .num q => some q)

/-- The plot the spec describes at index `i` (see `specCombinedSeries`). -/
def specCombinedPlot (s0 : Series) (seriesList : List Series) (operType : ℕ)
    (i : ℕ) : Plot :=
  ⟨(s0.Plots.getD i ⟨0, Value.nan⟩).Time,
   if (contribAt seriesList i).length = 0 then Value.nan
   else if operType = OperTypeAverage then
     Value.num ((contribAt seriesList i).sum / ((contribAt seriesList i).length : ℚ))
   else Value.num (contribAt seriesList i).sum⟩

/-- The combined series the spec describes (continuation of the above). -/
def specCombinedSeries (s0 : Series) (seriesList : List Series) (operType : ℕ) :
    Series :=
  { Name := ""
    Plots := (List.range s0.Plots.length).map (specCombinedPlot s0 seriesList operType)
    Step := 0
    Summary := [] }

/-- Digit expansion of the fractional part `q ∈ (0,1)`: emit the digit
`trunc(q*10)` and recurse on the remainder until it is zero (or the
fuel runs out; the values this code formats terminate well within it). -/
def fracString : ℕ → ℚ → String
  | 0, _ => ""
  | fuel + 1, q =>
    let q10 := q * 10
    let d := ratTrunc q10
    let rest := q10 - (d : ℚ)
    toString d.toNat ++ (if rest = 0 then "" else fracString fuel rest)

/-- Go `fmt` verb `%g` on a non-negative exact decimal value in the
non-scientific range: the integer part, then the fractional digits
only if there are any — the shortest decimal form, no trailing zeros. -/
def sprintfGNonneg (q : ℚ) : String :=
  let ip := ratTrunc q
  let fp := q - (ip : ℚ)
  if fp = 0 then toString ip.toNat
  else toString ip.toNat ++ "." ++ fracString 64 fp

/-- Go `fmt.Sprintf("%g", x)` for the exact decimal values this code
formats (percentile values in `[0,100]`). -/
def sprintfG (q : ℚ) : String :=
  if q < 0 then "-" ++ sprintfGNonneg (-q) else sprintfGNonneg q

/-- The summary key `fmt.Sprintf("%gth", percentile)` from
`Series.Percentiles` (plot.go). -/
def percentileString (p : ℚ) : String := sprintfG p ++ "th"

/-- The loop body of `Series.Percentiles` (plot.go) over the requested
percentiles, given the ascending-sorted non-NaN value set.  For each
percentile: `rank = (p/100)*(N+1)`; `rank <= 0` stores the first
element; `rank-1 >= N` stores the last; otherwise the code reads
`set[rankInt-1]` and `set[rankInt]` unconditionally — a negative index
(`rankInt = 0`, i.e. `0 < rank < 1`) or an index at/past the end
(`rankInt >= N`, i.e. `N <= rank < N+1`) is a Go runtime panic. -/
def percLoop (sorted : List ℚ) : List (String × Value) → List ℚ →
    Res (List (String × Value))
  | summary, [] => .ok summary
  | summary, p :: rest =>
    let key := percentileString p
    let N := sorted.length
    let rank := p / 100 * ((N : ℚ) + 1)
    let rankInt := ratTrunc rank
    let rankFrac := rank - (rankInt : ℚ)
    if rank ≤ 0 then
      match sorted[0]? with
      | none => .panic "index out of range"
      | some v => percLoop sorted (mapSet summary key (Value.num v)) rest
    else if rank - 1 ≥ (N : ℚ) then
      match sorted[N - 1]? with
      | none => .panic "index out of range"
      | some v => percLoop sorted (mapSet summary key (Value.num v)) rest
    else if rankInt < 1 then .panic "index out of range"
    else
      match sorted[(rankInt - 1).toNat]?, sorted[rankInt.toNat]? with
      | some lo, some hi =>
        percLoop sorted (mapSet summary key (Value.num (lo + rankFrac * (hi - lo)))) rest
      | _, _ => .panic "index out of range"

/-- The non-NaN value set of a series' plots, in plot order
(the `set` built at the top of `Series.Percentiles`). -/
def nonNaNSet (plots : List Plot) : List ℚ :=
  plots.filterMap (fun p =>
    match p.Value with
    | .nan => none
    | .num q => some q)


/-- The ascending-sorted non-NaN value set of a series' plots — the
`set` of `Series.Percentiles` after `sort.Float64s(set)`. -/
def nonNaNSorted (plots : List Plot) : List ℚ :=
  (nonNaNSet plots).mergeSort (fun a b => decide (a ≤ b))

/-- `Series.Percentiles` from plot.go acting on an explicit summary
map (the method mutates the shared `series.Summary` map): collect the
non-NaN values, return the summary unchanged when no percentiles are
requested or the set is empty, otherwise sort ascending and process
each percentile. -/
def percentilesOn (plots : List Plot) (summary : List (String × Value))
    (percentiles : List ℚ) : Res (List (String × Value)) :=
  let set := nonNaNSet plots
  if percentiles.length = 0 then .ok summary
  else if set.length = 0 then .ok summary
  else percLoop (set.mergeSort (fun a b => decide (a ≤ b))) summary percentiles

/-- `Series.Percentiles` (plot.go) on a series' own plots and summary. -/
def Series.Percentiles (series : Series) (percentiles : List ℚ) :
    Res (List (String × Value)) :=
  percentilesOn series.Plots series.Summary percentiles

/-- The min/max/total/count loop of `Series.Summarize` (plot.go):
* `min` is replaced when the plot value is a smaller real number or
  when the running min is NaN (same replace-on-NaN rule as bucket MIN);
* `max` is replaced only when `value > max` — NaN never replaces it,
  but it also starts from the zero value 0 and lacks the NaN-replace
  clause, so it is really the maximum of 0 and the real values;
* non-NaN values are totalled and counted. -/
def summarizeFold : List Plot → Value → Value → ℚ → ℕ →
    Value × Value × ℚ × ℕ
  | [], mn, mx, tot, n => (mn, mx, tot, n)
  | p :: rest, mn, mx, tot, n =>
    let mn2 := if (!(p.Value.isNaN) && vlt p.Value mn) || mn.isNaN then p.Value else mn
    let mx2 := if vgt p.Value mx then p.Value else mx
    match p.Value with
    | .nan => summarizeFold rest mn2 mx2 tot n
    | .num q => summarizeFold rest mn2 mx2 (tot + q) (n + 1)

/-- `Series.Summarize` from plot.go: writes `last` (when any plots
exist), `min`, `max`, `avg` (total of the non-NaN values divided by
their count; the 0/0 of an all-NaN series is IEEE NaN), then the
requested percentiles, into the summary map. -/
def Series.Summarize (series : Series) (percentiles : List ℚ) :
    Res (List (String × Value)) :=
  let nPlots := series.Plots.length
  -- `var min, max, total Value` start from the float64 zero value
  let mn0 : Value := if nPlots > 0 then (series.Plots.headD ⟨0, Value.nan⟩).Value
    else Value.num 0
  let m0 := if nPlots > 0
    then mapSet series.Summary "last" (series.Plots.getLastD ⟨0, Value.nan⟩).Value
    else series.Summary
  match summarizeFold series.Plots mn0 (Value.num 0) 0 0 with
  | (mn, mx, tot, n) =>
    let m1 := mapSet m0 "min" mn
    let m2 := mapSet m1 "max" mx
    let m3 := mapSet m2 "avg" (if n = 0 then Value.nan else Value.num (tot / (n : ℚ)))
    if percentiles.length > 0 then percentilesOn series.Plots m3 percentiles
    else .ok m3

/-- A series reference inside a graph operation group
(`library.OperGroup` entry, fields used by plotPrepareQuery). -/
structure SerieItem where
  Name : String
  Origin : String
  Source : String
  Metric : String
  Scale : ℚ
deriving DecidableEq, Repr

/-- A graph operation group (`library.OperGroup`). -/
structure OperGroup where
  Name : String
  «Type» : ℕ
  Scale : ℚ
  Series : List SerieItem
deriving DecidableEq, Repr

/-- A backend series query (`backend.SerieQuery`): the resolved metric
pointer may be nil (`none`) — unresolved metrics are logged but still
appended.  Metrics are modelled by an abstract identifier. -/
structure SerieQuery where
  Name : String
  Metric : Option ℕ
  Scale : ℚ
deriving DecidableEq, Repr

/-- A backend group query (`backend.GroupQuery`). -/
structure GroupQuery where
  Name : String
  «Type» : ℕ
  Scale : ℚ
  Series : List SerieQuery
deriving DecidableEq, Repr

/-- The fields of `types.PlotRequest` read by plotPrepareQuery. -/
structure PlotRequest where
  Template : String
  Source : String
deriving DecidableEq, Repr

/-- The server state plotPrepareQuery reads: the catalog's origin map
(origin name to owning backend connector, compared by identity and so
modelled as an abstract id — `none` for an unknown origin), the
library's group expansion, and the catalog metric lookup. -/
structure ServerEnv where
  origins : String → Option ℕ
  expandGroup : String → ℕ → List String
  getMetric : String → String → String → Option ℕ

/-- Abstract tag for `library.LibraryItemSourceGroup`. -/
def LibraryItemSourceGroup : ℕ := 0

/-- Abstract tag for `library.LibraryItemMetricGroup`. -/
def LibraryItemMetricGroup : ℕ := 1

/-- The source list for one series reference (plotPrepareQuery): the
request's source under a template, the expansion of a `group:` source,
or the literal source. -/
def serieSources (env : ServerEnv) (plotReq : PlotRequest)
    (serieItem : SerieItem) : List String :=
  if plotReq.Template ≠ "" then [plotReq.Source]
  else if "group:".isPrefixOf serieItem.Source then
    env.expandGroup (serieItem.Source.drop 6) LibraryItemSourceGroup
  else [serieItem.Source]

/-- The backend serie queries appended for one series reference
(plotPrepareQuery inner loops): one per source, expanded per metric
chunk for a `group:` metric (named `name-<index>`), with the catalog
lookup result (possibly `none`) attached. -/
def serieEntriesFor (env : ServerEnv) (plotReq : PlotRequest)
    (serieItem : SerieItem) : List SerieQuery :=
  (serieSources env plotReq serieItem).flatMap (fun serieSource =>
    if "group:".isPrefixOf serieItem.Metric then
      (env.expandGroup (serieItem.Metric.drop 6) LibraryItemMetricGroup).enum.map
        (fun pair =>
          ⟨serieItem.Name ++ "-" ++ toString pair.1,
           env.getMetric serieItem.Origin serieSource pair.2,
           serieItem.Scale⟩)
    else
      [⟨serieItem.Name,
        env.getMetric serieItem.Origin serieSource serieItem.Metric,
        serieItem.Scale⟩])

/-- The per-series loop of plotPrepareQuery: for each series reference,
fail on an unknown origin; record the first backend and fail as soon as
a series resolves to a different backend (identity comparison); then
append the series' backend queries. -/
def prepareLoop (env : ServerEnv) (plotReq : PlotRequest) :
    List SerieItem → Option ℕ → List SerieQuery →
    Except String (List SerieQuery × Option ℕ)
  | [], originBackend, acc => .ok (acc, originBackend)
  | serieItem :: rest, originBackend, acc =>
    match env.origins serieItem.Origin with
    | none => .error "unknown serie origin"
    | some b =>
      match originBackend with
      | none =>
        prepareLoop env plotReq rest (some b)
          (acc ++ serieEntriesFor env plotReq serieItem)
      | some b0 =>
        if b0 = b then
          prepareLoop env plotReq rest (some b0)
            (acc ++ serieEntriesFor env plotReq serieItem)
        else .error "backends differ between series"

/-- `plotPrepareQuery` from library_plot.go: run the series loop, then
fail when no serie query was produced, otherwise return the group query
and the single owning backend. -/
def plotPrepareQuery (env : ServerEnv) (plotReq : PlotRequest)
    (groupItem : OperGroup) : Except String (GroupQuery × Option ℕ) :=
  match prepareLoop env plotReq groupItem.Series none [] with
  | .error e => .error e
  | .ok (queries, originBackend) =>
    if queries.length = 0 then .error "no serie defined"
    else .ok (⟨groupItem.Name, groupItem.Type, groupItem.Scale, queries⟩,
      originBackend)

/-- The spec-side condition: all series references of the group resolve
to one common owning backend. -/
def sharedBackend (env : ServerEnv) (groupItem : OperGroup) : Prop :=
  ∃ b : ℕ, ∀ it ∈ groupItem.Series, env.origins it.Origin = some b

/-- All backend serie queries the group expands to. -/
def expandedEntries (env : ServerEnv) (plotReq : PlotRequest)
    (groupItem : OperGroup) : List SerieQuery :=
  groupItem.Series.flatMap (serieEntriesFor env plotReq)

/-- A concrete server environment for witnesses: every origin is owned
by backend 7, groups expand to nothing, metric lookups succeed. -/
def demoEnv : ServerEnv :=
  ⟨fun _ => some 7, fun _ _ => [], fun _ _ _ => some 1⟩

/-- A concrete plot request with no template. -/
def demoRequest : PlotRequest := ⟨"", "src1"⟩

/-- A concrete one-series group. -/
def demoGroup : OperGroup := ⟨"g", 2, 1, [⟨"s1", "o1", "src1", "m1", 1⟩]⟩


/-- C1 (amended): for every successful call with non-empty input and
positive sample, ConsolidateSeries returns one output series per input
series, in order; each output has exactly `sample` plots when
`sample <= max(len(series.Plots))` *or* every input series is empty
(maximum 0 — the cap is only applied when the maximum is positive),
and exactly that maximum number of plots otherwise; summaries are empty. -/
theorem consolidateSeries_bucket_counts (seriesList : List Series)
    (startTime endTime sample : ℤ) (ct : ℕ)
    (hs : 1 ≤ sample) (hne : seriesList ≠ []) :
    ∃ outList, consolidateSeries seriesList startTime endTime sample ct = .ok outList ∧
      outList.length = seriesList.length ∧
      ∀ r ∈ outList,
        r.Plots.length =
          (if maxPlotsLength seriesList = 0 ∨ sample ≤ (maxPlotsLength seriesList : ℤ)
           then sample.toNat else maxPlotsLength seriesList) ∧
        r.Summary = [] := by
  have h0 : ¬ sample = 0 := by omega
  have hlen : ¬ seriesList.length = 0 := by
    simpa [List.length_eq_zero] using hne
  have hneg : ¬ sample < 0 := by omega
  refine ⟨seriesList.map
      (consolidateOne startTime endTime
        (Int.tdiv (endTime - startTime)
          (((if 0 < maxPlotsLength seriesList ∧ (maxPlotsLength seriesList : ℤ) < sample
             then maxPlotsLength seriesList else sample.toNat : ℕ) : ℤ)))
        (if 0 < maxPlotsLength seriesList ∧ (maxPlotsLength seriesList : ℤ) < sample
         then maxPlotsLength seriesList else sample.toNat) ct),
    ?_, ?_, ?_⟩
  · simp only [consolidateSeries, if_neg h0, if_neg hlen, if_neg hneg]
  · simp
  · intro r hr
    simp only [List.mem_map] at hr
    obtain ⟨s, _, rfl⟩ := hr
    constructor
    · simp only [consolidateOne, List.length_map, List.length_range]
      split_ifs <;> omega
    · rfl

/-- C1 witness: a concrete successful call (one series, one plot,
sample 2, capped to the maximum length 1). -/
theorem consolidateSeries_bucket_counts_witness :
    (1 : ℤ) ≤ 2 ∧ ([{ Name := "a", Plots := [⟨1, Value.num 2⟩], Step := 0, Summary := [] }] : List Series) ≠ [] ∧
    ∃ outList, consolidateSeries [{ Name := "a", Plots := [⟨1, Value.num 2⟩], Step := 0, Summary := [] }] 0 8 2 ConsolidateAverage = .ok outList ∧
      outList.length = ([{ Name := "a", Plots := [⟨1, Value.num 2⟩], Step := 0, Summary := [] }] : List Series).length ∧
      ∀ r ∈ outList,
        r.Plots.length =
          (if maxPlotsLength [{ Name := "a", Plots := [⟨1, Value.num 2⟩], Step := 0, Summary := [] }] = 0 ∨
              (2 : ℤ) ≤ (maxPlotsLength [{ Name := "a", Plots := [⟨1, Value.num 2⟩], Step := 0, Summary := [] }] : ℤ)
           then (2 : ℤ).toNat else maxPlotsLength [{ Name := "a", Plots := [⟨1, Value.num 2⟩], Step := 0, Summary := [] }]) ∧
        r.Summary = [] :=
  ⟨by decide, by decide,
   consolidateSeries_bucket_counts _ 0 8 2 ConsolidateAverage (by decide) (by decide)⟩

/-- C1 counterexample: when every input series is empty the maximum
plot count is 0, yet the requested sample (5) is kept, so the output
has 5 plots, not the maximum (0) as the claim states. -/
theorem consolidateSeries_empty_inputs_keep_sample :
    consolidateSeries [{ Name := "e", Plots := [], Step := 0, Summary := [] }] 0 10 5 ConsolidateAverage
      = .ok [{ Name := "", Plots := [⟨0, Value.nan⟩, ⟨2, Value.nan⟩, ⟨4, Value.nan⟩, ⟨6, Value.nan⟩, ⟨8, Value.nan⟩], Step := 0, Summary := [] }] ∧
    maxPlotsLength [{ Name := "e", Plots := [], Step := 0, Summary := [] }] = 0 ∧
    (5 : ℕ) ≠ 0 := ⟨by rfl, by rfl, by decide⟩

/-- C2 (amended): ConsolidateSeries returns an error exactly when
`sample == 0` or the series list is empty; it returns a result list
when `sample > 0` and the list is non-empty; but for `sample < 0` with
a non-empty list it does not return an error — it panics on
`make([]plotBucket, sample)`, because only `sample == 0` is checked. -/
theorem consolidateSeries_error_conditions (seriesList : List Series)
    (startTime endTime sample : ℤ) (ct : ℕ) :
    ((consolidateSeries seriesList startTime endTime sample ct).isError = true ↔
      sample = 0 ∨ seriesList = []) ∧
    (0 < sample → seriesList ≠ [] →
      (consolidateSeries seriesList startTime endTime sample ct).isOk = true) ∧
    (sample < 0 → seriesList ≠ [] →
      (consolidateSeries seriesList startTime endTime sample ct).isPanic = true) := by
  by_cases h0 : sample = 0
  · simp [consolidateSeries, h0, Res.isError]
  · by_cases hnil : seriesList = []
    · simp [consolidateSeries, h0, hnil, Res.isError]
    · have hlen : ¬ seriesList.length = 0 := by simpa [List.length_eq_zero] using hnil
      by_cases hneg : sample < 0
      · simp [consolidateSeries, h0, hlen, hneg, Res.isError, Res.isPanic, hnil]
        omega
      · simp [consolidateSeries, h0, hlen, hneg, Res.isError, Res.isOk, Res.isPanic, hnil]

/-- C2 witness: concrete instantiation at sample 2 and a singleton
series list. -/
theorem consolidateSeries_error_conditions_witness :
    ((consolidateSeries [{ Name := "a", Plots := [], Step := 0, Summary := [] }] 0 10 2 ConsolidateSum).isError = true ↔
      (2 : ℤ) = 0 ∨ ([{ Name := "a", Plots := [], Step := 0, Summary := [] }] : List Series) = []) ∧
    ((0 : ℤ) < 2 → ([{ Name := "a", Plots := [], Step := 0, Summary := [] }] : List Series) ≠ [] →
      (consolidateSeries [{ Name := "a", Plots := [], Step := 0, Summary := [] }] 0 10 2 ConsolidateSum).isOk = true) ∧
    ((2 : ℤ) < 0 → ([{ Name := "a", Plots := [], Step := 0, Summary := [] }] : List Series) ≠ [] →
      (consolidateSeries [{ Name := "a", Plots := [], Step := 0, Summary := [] }] 0 10 2 ConsolidateSum).isPanic = true) :=
  consolidateSeries_error_conditions _ 0 10 2 ConsolidateSum

/-- C2 counterexample: `sample = -1 <= 0` with a non-empty series list
does not produce an error return as the claim states — the call panics
(Go `make` with negative length). -/
theorem consolidateSeries_negative_sample_not_error :
    consolidateSeries [{ Name := "a", Plots := [], Step := 0, Summary := [] }] 0 10 (-1) ConsolidateSum
      = .panic "makeslice: len out of range" ∧
    (-1 : ℤ) ≤ 0 ∧
    ([{ Name := "a", Plots := [], Step := 0, Summary := [] }] : List Series) ≠ [] := by
  refine ⟨by rfl, by decide, by decide⟩

/-- C10: Downsample is not total at `sample == 0`: ConsolidateSeries
rejects the call with an error, Downsample discards that error and
indexes element 0 of the nil result, which is an out-of-range panic —
the rejection is never surfaced gracefully. -/
theorem downsample_zero_sample_panics (series : Series)
    (startTime endTime : ℤ) (ct : ℕ) :
    Series.Downsample series startTime endTime 0 ct = .panic "index out of range" ∧
    consolidateSeries [series] startTime endTime 0 ct
      = .error "sample must be greater than zero" := by
  constructor
  · simp [Series.Downsample, consolidateSeries]
  · simp [consolidateSeries]

theorem mapOption_eq_some {α β : Type} (l : List α) (f : α → Option β)
    (g : α → β) (h : ∀ a ∈ l, f a = some (g a)) :
    mapOption l f = some (l.map g) := by
  induction l with
  | nil => rfl
  | cons a rest ih =>
    have ha := h a (by simp)
    have hr := ih (fun x hx => h x (by simp [hx]))
    simp [mapOption, ha, hr]

theorem operPointSum_eq (i : ℕ) (lst : List Series) (a : ℚ) (n : ℕ)
    (h : ∀ s ∈ lst, i < s.Plots.length) :
    operPointSum i lst (a, n) =
      some (a + (contribAt lst i).sum, n + (contribAt lst i).length) := by
  induction lst generalizing a n with
  | nil => simp [operPointSum, contribAt]
  | cons s rest ih =>
    have hi : i < s.Plots.length := h s (by simp)
    have hget : s.Plots[i]? = some (s.Plots.getD i ⟨0, Value.nan⟩) := by
      rw [List.getD_eq_getElem _ _ hi, List.getElem?_eq_getElem hi]
    have hr := fun a n => ih a n (fun x hx => h x (by simp [hx]))
    cases hv : (s.Plots.getD i ⟨0, Value.nan⟩).Value with
    | nan =>
      simp only [operPointSum, hget, hv, hr, contribAt, List.filterMap_cons]
    | num q =>
      simp only [operPointSum, hget, hv, hr]
      simp only [contribAt, List.filterMap_cons, hv]
      simp only [List.sum_cons, List.length_cons, Option.some.injEq, Prod.mk.injEq]
      refine ⟨by ring, by omega⟩

theorem operSeries_eq_spec (s0 : Series) (rest : List Series) (operType : ℕ)
    (hlen : ∀ s ∈ s0 :: rest, s.Plots.length = s0.Plots.length) :
    operSeries (s0 :: rest) operType =
      .ok (specCombinedSeries s0 (s0 :: rest) operType) := by
  have hmap : mapOption (List.range s0.Plots.length) (fun i =>
      match s0.Plots[i]? with
      | none => none
      | some p0 =>
        match operPointSum i (s0 :: rest) (0, 0) with
        | none => none
        | some (sum, n) =>
          some (⟨p0.Time,
            if n = 0 then Value.nan
            else if operType = OperTypeAverage then Value.num (sum / (n : ℚ))
            else Value.num sum⟩ : Plot)) =
      some ((List.range s0.Plots.length).map (specCombinedPlot s0 (s0 :: rest) operType)) := by
    apply mapOption_eq_some
    intro i hi
    have hi2 : i < s0.Plots.length := by simpa [List.mem_range] using hi
    have hget : s0.Plots[i]? = some (s0.Plots.getD i ⟨0, Value.nan⟩) := by
      rw [List.getD_eq_getElem _ _ hi2, List.getElem?_eq_getElem hi2]
    have hsum := operPointSum_eq i (s0 :: rest) 0 0
      (fun s hs => by rw [hlen s hs]; exact hi2)
    simp only [hget, hsum, zero_add, Nat.zero_add]
    simp [specCombinedPlot]
  simp only [operSeries, hmap, specCombinedSeries]

/-- C3: for a non-empty list of equal-length series, SumSeries and
AverageSeries compute, at every index, the NaN-skipping contributor
sum with contributor count n: NaN when n = 0, the sum for SUM, sum/n
for AVERAGE, with the timestamp copied from the first series; in
particular [1, NaN, 3] + [NaN, 2, 3] via SumSeries is [1, 2, 6]. -/
theorem sumSeries_averageSeries_pointwise (s0 : Series) (rest : List Series)
    (hlen : ∀ s ∈ s0 :: rest, s.Plots.length = s0.Plots.length) :
    SumSeries (s0 :: rest) = .ok (specCombinedSeries s0 (s0 :: rest) OperTypeSum) ∧
    AverageSeries (s0 :: rest) = .ok (specCombinedSeries s0 (s0 :: rest) OperTypeAverage) ∧
    SumSeries [⟨"", [⟨0, Value.num 1⟩, ⟨1, Value.nan⟩, ⟨2, Value.num 3⟩], 0, []⟩,
               ⟨"", [⟨0, Value.nan⟩, ⟨1, Value.num 2⟩, ⟨2, Value.num 3⟩], 0, []⟩]
      = .ok ⟨"", [⟨0, Value.num 1⟩, ⟨1, Value.num 2⟩, ⟨2, Value.num 6⟩], 0, []⟩ :=
  ⟨operSeries_eq_spec s0 rest OperTypeSum hlen,
   operSeries_eq_spec s0 rest OperTypeAverage hlen,
   by norm_num [SumSeries, operSeries, mapOption, operPointSum, List.range_succ,
     OperTypeSum, OperTypeAverage]⟩

/-- C3 witness: the theorem instantiated at the claim's own example
series [1, NaN, 3] and [NaN, 2, 3]. -/
theorem sumSeries_averageSeries_pointwise_witness :
    SumSeries [⟨"", [⟨0, Value.num 1⟩, ⟨1, Value.nan⟩, ⟨2, Value.num 3⟩], 0, []⟩,
               ⟨"", [⟨0, Value.nan⟩, ⟨1, Value.num 2⟩, ⟨2, Value.num 3⟩], 0, []⟩]
      = .ok (specCombinedSeries
          ⟨"", [⟨0, Value.num 1⟩, ⟨1, Value.nan⟩, ⟨2, Value.num 3⟩], 0, []⟩
          [⟨"", [⟨0, Value.num 1⟩, ⟨1, Value.nan⟩, ⟨2, Value.num 3⟩], 0, []⟩,
           ⟨"", [⟨0, Value.nan⟩, ⟨1, Value.num 2⟩, ⟨2, Value.num 3⟩], 0, []⟩] OperTypeSum) ∧
    AverageSeries [⟨"", [⟨0, Value.num 1⟩, ⟨1, Value.nan⟩, ⟨2, Value.num 3⟩], 0, []⟩,
                   ⟨"", [⟨0, Value.nan⟩, ⟨1, Value.num 2⟩, ⟨2, Value.num 3⟩], 0, []⟩]
      = .ok (specCombinedSeries
          ⟨"", [⟨0, Value.num 1⟩, ⟨1, Value.nan⟩, ⟨2, Value.num 3⟩], 0, []⟩
          [⟨"", [⟨0, Value.num 1⟩, ⟨1, Value.nan⟩, ⟨2, Value.num 3⟩], 0, []⟩,
           ⟨"", [⟨0, Value.nan⟩, ⟨1, Value.num 2⟩, ⟨2, Value.num 3⟩], 0, []⟩] OperTypeAverage) ∧
    SumSeries [⟨"", [⟨0, Value.num 1⟩, ⟨1, Value.nan⟩, ⟨2, Value.num 3⟩], 0, []⟩,
               ⟨"", [⟨0, Value.nan⟩, ⟨1, Value.num 2⟩, ⟨2, Value.num 3⟩], 0, []⟩]
      = .ok ⟨"", [⟨0, Value.num 1⟩, ⟨1, Value.num 2⟩, ⟨2, Value.num 6⟩], 0, []⟩ :=
  sumSeries_averageSeries_pointwise _ _ (by decide)

theorem init_le_foldl_max (q : ℚ) (xs : List ℚ) : q ≤ xs.foldl max q := by
  induction xs generalizing q with
  | nil => exact le_refl q
  | cons x xs ih => exact le_trans (le_max_left q x) (ih (max q x))

theorem mem_le_foldl_max (q x : ℚ) (xs : List ℚ) (hx : x ∈ xs) :
    x ≤ xs.foldl max q := by
  induction xs generalizing q with
  | nil => simp at hx
  | cons y ys ih =>
    rcases List.mem_cons.mp hx with h | h
    · subst h
      exact le_trans (le_max_right q x) (init_le_foldl_max _ ys)
    · exact ih _ h

theorem foldl_min_le_init (q : ℚ) (xs : List ℚ) : xs.foldl min q ≤ q := by
  induction xs generalizing q with
  | nil => exact le_refl q
  | cons x xs ih => exact le_trans (ih (min q x)) (min_le_left q x)

theorem foldl_min_le_mem (q x : ℚ) (xs : List ℚ) (hx : x ∈ xs) :
    xs.foldl min q ≤ x := by
  induction xs generalizing q with
  | nil => simp at hx
  | cons y ys ih =>
    rcases List.mem_cons.mp hx with h | h
    · subst h
      exact le_trans (foldl_min_le_init _ ys) (min_le_right q x)
    · exact ih _ h

theorem sum_le_length_mul (vs : List ℚ) (M : ℚ) (h : ∀ x ∈ vs, x ≤ M) :
    vs.sum ≤ (vs.length : ℚ) * M := by
  induction vs with
  | nil => simp
  | cons x xs ih =>
    have h1 : x ≤ M := h x (by simp)
    have h2 := ih (fun y hy => h y (by simp [hy]))
    simp only [List.sum_cons, List.length_cons]
    push_cast
    nlinarith

theorem length_mul_le_sum (vs : List ℚ) (m : ℚ) (h : ∀ x ∈ vs, m ≤ x) :
    (vs.length : ℚ) * m ≤ vs.sum := by
  induction vs with
  | nil => simp
  | cons x xs ih =>
    have h1 : m ≤ x := h x (by simp)
    have h2 := ih (fun y hy => h y (by simp [hy]))
    simp only [List.sum_cons, List.length_cons]
    push_cast
    nlinarith

theorem foldl_vadd_nums (plots : List Plot) (vs : List ℚ) (a : ℚ)
    (h : plots.map Plot.Value = vs.map Value.num) :
    plots.foldl (fun acc p => vadd acc p.Value) (Value.num a)
      = Value.num (a + vs.sum) := by
  induction plots generalizing vs a with
  | nil =>
    cases vs with
    | nil => simp
    | cons v vs => simp at h
  | cons p ps ih =>
    cases vs with
    | nil => simp at h
    | cons v vs =>
      simp only [List.map_cons, List.cons.injEq] at h
      obtain ⟨hp, hps⟩ := h
      simp only [List.foldl_cons, hp]
      rw [show vadd (Value.num a) (Value.num v) = Value.num (a + v) from rfl,
        ih vs (a + v) hps, List.sum_cons]
      congr 1
      ring

/-- C6 (amended): for every bucket all of whose member plots carry
real (non-NaN) values, the AVERAGE consolidation produces exactly the
arithmetic mean of the member values, that mean lies within
[min(members), max(members)], and the consolidated plot's time is the
midpoint (with truncated halving) between the first and last member's
timestamps.  (With a NaN member the float sum — which does not skip
NaN — is NaN, so the value clause needs the all-real restriction.) -/
theorem consolidate_average_in_bounds (bucket : plotBucket) (q0 : ℚ) (qs : List ℚ)
    (hv : bucket.plots.map Plot.Value = (q0 :: qs).map Value.num) :
    (bucket.Consolidate ConsolidateAverage).Value
        = Value.num ((q0 :: qs).sum / (((q0 :: qs).length : ℕ) : ℚ)) ∧
    qs.foldl min q0 ≤ (q0 :: qs).sum / (((q0 :: qs).length : ℕ) : ℚ) ∧
    (q0 :: qs).sum / (((q0 :: qs).length : ℕ) : ℚ) ≤ qs.foldl max q0 ∧
    (bucket.Consolidate ConsolidateAverage).Time
        = (bucket.plots.headD ⟨bucket.startTime, Value.nan⟩).Time +
          Int.tdiv ((bucket.plots.getLastD ⟨bucket.startTime, Value.nan⟩).Time -
            (bucket.plots.headD ⟨bucket.startTime, Value.nan⟩).Time) 2 := by
  have hlenpos : (0 : ℚ) < (((q0 :: qs).length : ℕ) : ℚ) := by
    simp only [List.length_cons]
    push_cast
    positivity
  refine ⟨?_, ?_, ?_, ?_⟩
  · -- value = mean
    rcases hplots : bucket.plots with _ | ⟨p, ps⟩
    · rw [hplots] at hv; simp at hv
    · rw [hplots] at hv
      have hsum := foldl_vadd_nums (p :: ps) (q0 :: qs) 0 hv
      have hlen : (p :: ps).length = (q0 :: qs).length := by
        have := congrArg List.length hv; simpa using this
      simp only [plotBucket.Consolidate, hplots, List.length_cons, Nat.succ_ne_zero,
        if_false, if_pos rfl, hsum, vdiv, if_true]
      simp only [List.length_cons] at hlen
      rw [hlen]
      have hne : (((qs.length + 1 : ℕ) : ℚ)) ≠ 0 := by positivity
      simp [hne, zero_add, List.length_cons]
      positivity
  · -- min bound
    rw [le_div_iff₀ hlenpos]
    exact le_trans (le_of_eq (mul_comm _ _))
      (length_mul_le_sum (q0 :: qs) (qs.foldl min q0) (fun x hx => by
        rcases List.mem_cons.mp hx with rfl | h
        · exact foldl_min_le_init x qs
        · exact foldl_min_le_mem q0 x qs h))
  · -- max bound
    rw [div_le_iff₀ hlenpos]
    exact le_trans (sum_le_length_mul (q0 :: qs) (qs.foldl max q0) (fun x hx => by
      rcases List.mem_cons.mp hx with rfl | h
      · exact init_le_foldl_max x qs
      · exact mem_le_foldl_max q0 x qs h)) (le_of_eq (mul_comm _ _))
  · -- midpoint time
    rcases hplots : bucket.plots with _ | ⟨p, ps⟩
    · rw [hplots] at hv; simp at hv
    · cases ps with
      | nil =>
        simp [plotBucket.Consolidate, hplots, Int.zero_tdiv]
      | cons p2 ps2 =>
        simp [plotBucket.Consolidate, hplots]

/-- C6 witness: the bucket with members (time 0, value 1) and
(time 4, value 3): mean 2, within [1, 3], at midpoint time 2. -/
theorem consolidate_average_in_bounds_witness :
    (plotBucket.mk 0 [⟨0, Value.num 1⟩, ⟨4, Value.num 3⟩]).plots.map Plot.Value
        = ([1, 3] : List ℚ).map Value.num ∧
    ((plotBucket.mk 0 [⟨0, Value.num 1⟩, ⟨4, Value.num 3⟩]).Consolidate ConsolidateAverage).Value
        = Value.num (([1, 3] : List ℚ).sum / ((([1, 3] : List ℚ).length : ℕ) : ℚ)) ∧
    ([3] : List ℚ).foldl min 1 ≤ ([1, 3] : List ℚ).sum / ((([1, 3] : List ℚ).length : ℕ) : ℚ) ∧
    ([1, 3] : List ℚ).sum / ((([1, 3] : List ℚ).length : ℕ) : ℚ) ≤ ([3] : List ℚ).foldl max 1 ∧
    ((plotBucket.mk 0 [⟨0, Value.num 1⟩, ⟨4, Value.num 3⟩]).Consolidate ConsolidateAverage).Time
        = ((plotBucket.mk 0 [⟨0, Value.num 1⟩, ⟨4, Value.num 3⟩]).plots.headD ⟨0, Value.nan⟩).Time +
          Int.tdiv (((plotBucket.mk 0 [⟨0, Value.num 1⟩, ⟨4, Value.num 3⟩]).plots.getLastD ⟨0, Value.nan⟩).Time -
            ((plotBucket.mk 0 [⟨0, Value.num 1⟩, ⟨4, Value.num 3⟩]).plots.headD ⟨0, Value.nan⟩).Time) 2 :=
  ⟨by decide, consolidate_average_in_bounds _ 1 [3] (by decide)⟩

/-- C6 counterexample: the bucket {(0, 1), (4, NaN)} has a non-NaN
member, yet its AVERAGE-consolidated value is NaN (the float sum does
not skip NaN), which is not a real number and in particular does not
lie within [1, 1] = [min, max] of the non-NaN members. -/
theorem consolidate_average_nan_member :
    (plotBucket.mk 0 [⟨0, Value.num 1⟩, ⟨4, Value.nan⟩]).Consolidate ConsolidateAverage
      = ⟨2, Value.nan⟩ ∧
    Value.isNum ((plotBucket.mk 0 [⟨0, Value.num 1⟩, ⟨4, Value.nan⟩]).Consolidate ConsolidateAverage).Value
      = false := by
  constructor
  · norm_num [plotBucket.Consolidate, vadd, vdiv, ConsolidateAverage]
    decide
  · norm_num [plotBucket.Consolidate, vadd, vdiv, ConsolidateAverage, Value.isNum]

/-- C5: evaluating Summarize at the single-plot series [(0, -5)]: the
stored max is 0, not the NaN-ignoring maximum -5 (the running max
starts at the zero value 0 and `value > max` never replaces it with a
negative value), while min is correctly -5. -/
theorem summarize_max_zero_on_negative_series :
    resLookup (Series.Summarize ⟨"", [⟨0, Value.num (-5)⟩], 0, []⟩ []) "max"
      = some (Value.num 0) ∧
    resLookup (Series.Summarize ⟨"", [⟨0, Value.num (-5)⟩], 0, []⟩ []) "min"
      = some (Value.num (-5)) ∧
    Value.num 0 ≠ Value.num (-5) := by
  refine ⟨?_, ?_, by decide⟩ <;>
    (norm_num [Series.Summarize, summarizeFold, mapSet, resLookup, percentilesOn,
      vlt, vgt, Value.isNaN, List.lookup]
     decide)

theorem ratTrunc_eq_floor (q : ℚ) (h : 0 ≤ q) : ratTrunc q = ⌊q⌋ := by
  have hnum : 0 ≤ q.num := Rat.num_nonneg.mpr h
  have hden : (0:ℤ) ≤ (q.den : ℤ) := by positivity
  rw [ratTrunc, Int.tdiv_eq_ediv hnum hden]
  rw [show ⌊q⌋ = ⌊((q.num : ℚ)) / ((q.den : ℕ) : ℚ)⌋ from by rw [Rat.num_div_den],
    Rat.floor_intCast_div_natCast]

/-- C7 (amended): percentile summary keys are `"<p>th"` with `p`
rendered by Go `%g`: integral percentiles have no decimal point
("95th"), and non-integral ones use the shortest decimal form with no
trailing zero ("95.5th" — not two fixed decimals "95.50th"); a
concrete Percentiles call writes key "62.5th" and no "62.50th" key. -/
theorem percentile_key_format :
    (∀ n : ℕ, percentileString (n : ℚ) = toString n ++ "th") ∧
    percentileString ((191 : ℚ)/2) = "95.5th" ∧
    Series.Percentiles ⟨"", [⟨0, Value.num 10⟩, ⟨1, Value.num 20⟩, ⟨2, Value.num 30⟩], 0, []⟩
        [(125 : ℚ)/2] = .ok [("62.5th", Value.num 25)] ∧
    resLookup (Series.Percentiles
        ⟨"", [⟨0, Value.num 10⟩, ⟨1, Value.num 20⟩, ⟨2, Value.num 30⟩], 0, []⟩
        [(125 : ℚ)/2]) "62.50th" = none := by
  have hint : ∀ n : ℕ, percentileString (n : ℚ) = toString n ++ "th" := by
    intro n
    have h1 : ¬ ((n : ℚ) < 0) := not_lt.mpr (by positivity)
    have h2 : ratTrunc (n : ℚ) = (n : ℤ) := by
      rw [ratTrunc_eq_floor _ (by positivity)]
      exact_mod_cast Int.floor_natCast n
    simp [percentileString, sprintfG, sprintfGNonneg, h1, h2, Int.toNat_natCast]
  have h955 : percentileString ((191 : ℚ)/2) = "95.5th" := by
    have ha : ratTrunc ((191 : ℚ)/2) = 95 := by
      rw [ratTrunc_eq_floor _ (by norm_num)]; norm_num
    have hb : ratTrunc ((5 : ℚ)) = 5 := by
      rw [ratTrunc_eq_floor _ (by norm_num)]; norm_num
    norm_num [percentileString, sprintfG, sprintfGNonneg, ha]
    rw [show (64 : ℕ) = 63 + 1 from rfl, fracString]
    norm_num [hb]
    decide
  have hcall : Series.Percentiles
      ⟨"", [⟨0, Value.num 10⟩, ⟨1, Value.num 20⟩, ⟨2, Value.num 30⟩], 0, []⟩
      [(125 : ℚ)/2] = .ok [("62.5th", Value.num 25)] := by
    have hsort : List.mergeSort ([10, 20, 30] : List ℚ) (fun a b => decide (a ≤ b))
        = [10, 20, 30] := List.mergeSort_eq_self (by decide)
    have hkey : percentileString ((125 : ℚ)/2) = "62.5th" := by
      have ha : ratTrunc ((125 : ℚ)/2) = 62 := by
        rw [ratTrunc_eq_floor _ (by norm_num)]; norm_num
      have hb : ratTrunc ((5 : ℚ)) = 5 := by
        rw [ratTrunc_eq_floor _ (by norm_num)]; norm_num
      norm_num [percentileString, sprintfG, sprintfGNonneg, ha]
      rw [show (64 : ℕ) = 63 + 1 from rfl, fracString]
      norm_num [hb]
      decide
    have hrank : ratTrunc ((5 : ℚ)/2) = 2 := by
      rw [ratTrunc_eq_floor _ (by norm_num)]
      norm_num
    have hset : nonNaNSet [⟨0, Value.num 10⟩, ⟨1, Value.num 20⟩, ⟨2, Value.num 30⟩]
        = [10, 20, 30] := by simp [nonNaNSet]
    rw [Series.Percentiles, percentilesOn, hset]
    have h30 : ([10, 20, 30] : List ℚ)[Int.toNat 2] = 30 := by decide
    norm_num [hsort, percLoop, hkey, hrank, mapSet, Int.toNat_ofNat, h30,
      List.getElem_cons_succ, List.getElem_cons_zero]
  refine ⟨hint, h955, hcall, ?_⟩
  rw [resLookup.eq_def, hcall]
  decide

/-- C7 witness: the integral-percentile clause of the theorem applied
at percentile 95 gives the key "95th". -/
theorem percentile_key_format_witness :
    percentileString ((95 : ℕ) : ℚ) = toString (95 : ℕ) ++ "th" :=
  percentile_key_format.1 95

/-- C7 counterexample: for the non-integral percentile 95.5 the key
written is "95.5th" (Go %g shortest form), not the "95.50th" the claim
requires; so p is not rendered with exactly two decimal digits. -/
theorem percentile_key_not_two_decimals :
    percentileString ((191 : ℚ)/2) = "95.5th" ∧ "95.5th" ≠ "95.50th" := by
  constructor
  · have ha : ratTrunc ((191 : ℚ)/2) = 95 := by
      rw [ratTrunc_eq_floor _ (by norm_num)]; norm_num
    have hb : ratTrunc ((5 : ℚ)) = 5 := by
      rw [ratTrunc_eq_floor _ (by norm_num)]; norm_num
    norm_num [percentileString, sprintfG, sprintfGNonneg, ha]
    rw [show (64 : ℕ) = 63 + 1 from rfl, fracString]
    norm_num [hb]
    decide
  · decide

theorem getElem0_eq_headD (l : List ℚ) (h : l ≠ []) : l[0]? = some (l.headD 0) := by
  cases l with
  | nil => simp at h
  | cons a t => simp

theorem getElemLast_eq_getLastD (l : List ℚ) (h : l ≠ []) :
    l[l.length - 1]? = some (l.getLastD 0) := by
  rw [← List.getLast?_eq_getElem?, List.getLastD_eq_getLast?]
  cases hl : l.getLast? with
  | none => rw [List.getLast?_eq_none_iff] at hl; exact absurd hl h
  | some v => simp

theorem headD_mem (l : List ℚ) (h : l ≠ []) : l.headD 0 ∈ l := by
  cases l with
  | nil => simp at h
  | cons a t => simp

theorem getLastD_mem (l : List ℚ) (h : l ≠ []) : l.getLastD 0 ∈ l := by
  rw [List.getLastD_eq_getLast?]
  cases hl : l.getLast? with
  | none => rw [List.getLast?_eq_none_iff] at hl; exact absurd hl h
  | some v =>
    simp only [Option.getD_some]
    exact List.mem_of_mem_getLast? (by rw [hl]; rfl)

theorem headD_le_of_pairwise (l : List ℚ)
    (hp : List.Pairwise (fun a b => decide (a ≤ b) = true) l) :
    ∀ x ∈ l, l.headD 0 ≤ x := by
  cases l with
  | nil => simp
  | cons a t =>
    rcases List.pairwise_cons.mp hp with ⟨ha, _⟩
    intro x hx
    rcases List.mem_cons.mp hx with rfl | hx2
    · simp
    · simpa using decide_eq_true_iff.mp (ha x hx2)

theorem le_getLastD_of_pairwise (l : List ℚ)
    (hp : List.Pairwise (fun a b => decide (a ≤ b) = true) l) :
    ∀ x ∈ l, x ≤ l.getLastD 0 := by
  induction l with
  | nil => simp
  | cons a t ih =>
    rcases List.pairwise_cons.mp hp with ⟨ha, ht⟩
    intro x hx
    cases t with
    | nil =>
      rcases List.mem_cons.mp hx with rfl | hx2
      · simp [List.getLastD]
      · simp at hx2
    | cons b t2 =>
      have hlast : (a :: b :: t2).getLastD 0 = (b :: t2).getLastD 0 := by
        rw [List.getLastD_eq_getLast?, List.getLastD_eq_getLast?,
          List.getLast?_cons_cons]
      rw [hlast]
      rcases List.mem_cons.mp hx with rfl | hx2
      · exact le_trans (decide_eq_true_iff.mp (ha b (by simp)))
          (ih ht b (by simp))
      · exact ih ht x hx2

theorem percLoop_low (sorted : List ℚ) (summary : List (String × Value)) (p : ℚ)
    (hne : sorted ≠ [])
    (hr : p / 100 * ((sorted.length : ℚ) + 1) ≤ 0) :
    percLoop sorted summary [p] =
      .ok (mapSet summary (percentileString p) (Value.num (sorted.headD 0))) := by
  simp only [percLoop, if_pos hr, getElem0_eq_headD sorted hne]

theorem percLoop_high (sorted : List ℚ) (summary : List (String × Value)) (p : ℚ)
    (hne : sorted ≠ [])
    (hr : p / 100 * ((sorted.length : ℚ) + 1) - 1 ≥ (sorted.length : ℚ)) :
    percLoop sorted summary [p] =
      .ok (mapSet summary (percentileString p) (Value.num (sorted.getLastD 0))) := by
  have hN : (0:ℚ) ≤ (sorted.length : ℚ) := by positivity
  have h0 : ¬ (p / 100 * ((sorted.length : ℚ) + 1) ≤ 0) := by
    push_neg
    nlinarith
  simp only [percLoop, if_neg h0, if_pos hr, getElemLast_eq_getLastD sorted hne]

theorem percLoop_interp (sorted : List ℚ) (summary : List (String × Value)) (p : ℚ)
    (h1 : 1 ≤ p / 100 * ((sorted.length : ℚ) + 1))
    (h2 : p / 100 * ((sorted.length : ℚ) + 1) < (sorted.length : ℚ)) :
    percLoop sorted summary [p] =
      .ok (mapSet summary (percentileString p)
        (Value.num (sorted.getD (⌊p / 100 * ((sorted.length : ℚ) + 1)⌋ - 1).toNat 0 +
          (p / 100 * ((sorted.length : ℚ) + 1) -
            ((⌊p / 100 * ((sorted.length : ℚ) + 1)⌋ : ℤ) : ℚ)) *
          (sorted.getD (⌊p / 100 * ((sorted.length : ℚ) + 1)⌋).toNat 0 -
           sorted.getD (⌊p / 100 * ((sorted.length : ℚ) + 1)⌋ - 1).toNat 0)))) := by
  have h0 : ¬ (p / 100 * ((sorted.length : ℚ) + 1) ≤ 0) := by push_neg; linarith
  have hhigh : ¬ (p / 100 * ((sorted.length : ℚ) + 1) - 1 ≥ (sorted.length : ℚ)) := by
    push_neg; linarith
  have htr : ratTrunc (p / 100 * ((sorted.length : ℚ) + 1))
      = ⌊p / 100 * ((sorted.length : ℚ) + 1)⌋ :=
    ratTrunc_eq_floor _ (by linarith)
  have hfl1 : 1 ≤ ⌊p / 100 * ((sorted.length : ℚ) + 1)⌋ :=
    Int.le_floor.mpr (by exact_mod_cast h1)
  have hfl2 : ⌊p / 100 * ((sorted.length : ℚ) + 1)⌋ < (sorted.length : ℤ) := by
    have hle : ((⌊p / 100 * ((sorted.length : ℚ) + 1)⌋ : ℤ) : ℚ)
        ≤ p / 100 * ((sorted.length : ℚ) + 1) := Int.floor_le _
    exact_mod_cast lt_of_le_of_lt hle h2
  have hrel : ¬ (ratTrunc (p / 100 * ((sorted.length : ℚ) + 1)) < 1) := by
    rw [htr]; omega
  have hidx1 : ((ratTrunc (p / 100 * ((sorted.length : ℚ) + 1)) - 1).toNat)
      < sorted.length := by rw [htr]; omega
  have hidx2 : (ratTrunc (p / 100 * ((sorted.length : ℚ) + 1))).toNat
      < sorted.length := by rw [htr]; omega
  simp only [percLoop, if_neg h0, if_neg hhigh, if_neg hrel,
    List.getElem?_eq_getElem hidx1, List.getElem?_eq_getElem hidx2]
  simp only [htr, List.getD_eq_getElem sorted 0 (htr ▸ hidx1),
    List.getD_eq_getElem sorted 0 (htr ▸ hidx2)]

theorem percLoop_panic_under (sorted : List ℚ) (summary : List (String × Value)) (p : ℚ)
    (hpos : 0 < p / 100 * ((sorted.length : ℚ) + 1))
    (hlt : p / 100 * ((sorted.length : ℚ) + 1) < 1) :
    percLoop sorted summary [p] = .panic "index out of range" := by
  have hN : (0:ℚ) ≤ (sorted.length : ℚ) := by positivity
  have h0 : ¬ (p / 100 * ((sorted.length : ℚ) + 1) ≤ 0) := by push_neg; linarith
  have hhigh : ¬ (p / 100 * ((sorted.length : ℚ) + 1) - 1 ≥ (sorted.length : ℚ)) := by
    push_neg; linarith
  have htr : ratTrunc (p / 100 * ((sorted.length : ℚ) + 1))
      = ⌊p / 100 * ((sorted.length : ℚ) + 1)⌋ :=
    ratTrunc_eq_floor _ (by linarith)
  have hfl : ⌊p / 100 * ((sorted.length : ℚ) + 1)⌋ = 0 := by
    rw [Int.floor_eq_iff]
    simp
    constructor <;> [linarith; linarith]
  have hrel : ratTrunc (p / 100 * ((sorted.length : ℚ) + 1)) < 1 := by
    rw [htr, hfl]; omega
  simp only [percLoop, if_neg h0, if_neg hhigh, if_pos hrel]

theorem percLoop_panic_over (sorted : List ℚ) (summary : List (String × Value)) (p : ℚ)
    (hne : sorted ≠ [])
    (hge : (sorted.length : ℚ) ≤ p / 100 * ((sorted.length : ℚ) + 1))
    (hlt : p / 100 * ((sorted.length : ℚ) + 1) < (sorted.length : ℚ) + 1) :
    percLoop sorted summary [p] = .panic "index out of range" := by
  have hN : 1 ≤ sorted.length := by
    cases sorted with
    | nil => exact absurd rfl hne
    | cons a t => simp
  have hN1 : (1:ℚ) ≤ (sorted.length : ℚ) := by exact_mod_cast hN
  have h0 : ¬ (p / 100 * ((sorted.length : ℚ) + 1) ≤ 0) := by push_neg; linarith
  have hhigh : ¬ (p / 100 * ((sorted.length : ℚ) + 1) - 1 ≥ (sorted.length : ℚ)) := by
    push_neg; linarith
  have htr : ratTrunc (p / 100 * ((sorted.length : ℚ) + 1))
      = ⌊p / 100 * ((sorted.length : ℚ) + 1)⌋ :=
    ratTrunc_eq_floor _ (by linarith)
  have hfl : ⌊p / 100 * ((sorted.length : ℚ) + 1)⌋ = (sorted.length : ℤ) := by
    rw [Int.floor_eq_iff]
    constructor
    · exact_mod_cast hge
    · push_cast; linarith
  have hrel : ¬ (ratTrunc (p / 100 * ((sorted.length : ℚ) + 1)) < 1) := by
    rw [htr, hfl]; omega
  have hidx1 : ((ratTrunc (p / 100 * ((sorted.length : ℚ) + 1)) - 1).toNat)
      < sorted.length := by rw [htr, hfl]; omega
  have hidx2 : sorted[(ratTrunc (p / 100 * ((sorted.length : ℚ) + 1))).toNat]?
      = none := by
    rw [htr, hfl]
    apply List.getElem?_eq_none
    simp
  simp only [percLoop, if_neg h0, if_neg hhigh, if_neg hrel,
    List.getElem?_eq_getElem hidx1, hidx2]

/-- C4 (amended): for a series with at least one non-NaN value and a
requested percentile p with rank = (p/100)*(N+1) over the
ascending-sorted non-NaN value set (N its size), Percentiles stores
the minimum element when rank <= 0, the maximum element when
rank - 1 >= N, and the linear interpolation between the two bracketing
order statistics at the fractional part of rank when 1 <= rank < N;
but for 0 < rank < 1 the code reads set[rankInt-1] = set[-1], and for
N <= rank < N+1 it reads set[rankInt] = set[N] — both runtime panics
(index out of range), so the claimed rule cannot hold there. -/
theorem percentiles_rank_rule (s : Series) (p : ℚ)
    (hN : 0 < (nonNaNSet s.Plots).length) :
    (p / 100 * (((nonNaNSet s.Plots).length : ℚ) + 1) ≤ 0 →
      s.Percentiles [p] = .ok (mapSet s.Summary (percentileString p)
          (Value.num ((nonNaNSorted s.Plots).headD 0))) ∧
      (∀ x ∈ nonNaNSet s.Plots, (nonNaNSorted s.Plots).headD 0 ≤ x) ∧
      (nonNaNSorted s.Plots).headD 0 ∈ nonNaNSet s.Plots) ∧
    (p / 100 * (((nonNaNSet s.Plots).length : ℚ) + 1) - 1 ≥ ((nonNaNSet s.Plots).length : ℚ) →
      s.Percentiles [p] = .ok (mapSet s.Summary (percentileString p)
          (Value.num ((nonNaNSorted s.Plots).getLastD 0))) ∧
      (∀ x ∈ nonNaNSet s.Plots, x ≤ (nonNaNSorted s.Plots).getLastD 0) ∧
      (nonNaNSorted s.Plots).getLastD 0 ∈ nonNaNSet s.Plots) ∧
    (1 ≤ p / 100 * (((nonNaNSet s.Plots).length : ℚ) + 1) →
     p / 100 * (((nonNaNSet s.Plots).length : ℚ) + 1) < ((nonNaNSet s.Plots).length : ℚ) →
      s.Percentiles [p] = .ok (mapSet s.Summary (percentileString p)
        (Value.num ((nonNaNSorted s.Plots).getD
            (⌊p / 100 * (((nonNaNSet s.Plots).length : ℚ) + 1)⌋ - 1).toNat 0 +
          (p / 100 * (((nonNaNSet s.Plots).length : ℚ) + 1) -
            ((⌊p / 100 * (((nonNaNSet s.Plots).length : ℚ) + 1)⌋ : ℤ) : ℚ)) *
          ((nonNaNSorted s.Plots).getD
              (⌊p / 100 * (((nonNaNSet s.Plots).length : ℚ) + 1)⌋).toNat 0 -
           (nonNaNSorted s.Plots).getD
              (⌊p / 100 * (((nonNaNSet s.Plots).length : ℚ) + 1)⌋ - 1).toNat 0))))) ∧
    (0 < p / 100 * (((nonNaNSet s.Plots).length : ℚ) + 1) →
     p / 100 * (((nonNaNSet s.Plots).length : ℚ) + 1) < 1 →
      s.Percentiles [p] = .panic "index out of range") ∧
    (((nonNaNSet s.Plots).length : ℚ) ≤ p / 100 * (((nonNaNSet s.Plots).length : ℚ) + 1) →
     p / 100 * (((nonNaNSet s.Plots).length : ℚ) + 1) < ((nonNaNSet s.Plots).length : ℚ) + 1 →
      s.Percentiles [p] = .panic "index out of range") := by
  have hlen : (nonNaNSorted s.Plots).length = (nonNaNSet s.Plots).length :=
    List.length_mergeSort _
  have hne : nonNaNSorted s.Plots ≠ [] := by
    intro hcontra
    rw [hcontra] at hlen
    simp only [List.length_nil] at hlen
    omega
  have hopen : s.Percentiles [p] = percLoop (nonNaNSorted s.Plots) s.Summary [p] := by
    rw [Series.Percentiles, percentilesOn]
    rw [if_neg (by simp), if_neg (by omega)]
    rfl
  have hpw : List.Pairwise (fun a b => decide (a ≤ b) = true) (nonNaNSorted s.Plots) :=
    List.sorted_mergeSort
      (by intro a b c hab hbc
          simp only [decide_eq_true_iff] at *
          exact le_trans hab hbc)
      (by intro a b
          simpa [decide_eq_true_iff] using le_total a b)
      (nonNaNSet s.Plots)
  have hpm : ∀ x : ℚ, x ∈ nonNaNSorted s.Plots ↔ x ∈ nonNaNSet s.Plots :=
    fun x => (List.mergeSort_perm (nonNaNSet s.Plots) _).mem_iff
  refine ⟨?_, ?_, ?_, ?_, ?_⟩
  · intro hr
    have hr2 : p / 100 * (((nonNaNSorted s.Plots).length : ℚ) + 1) ≤ 0 := by
      rw [hlen]; exact hr
    refine ⟨by rw [hopen]; exact percLoop_low _ _ _ hne hr2,
      fun x hx => headD_le_of_pairwise _ hpw x ((hpm x).mpr hx),
      (hpm _).mp (headD_mem _ hne)⟩
  · intro hr
    have hr2 : p / 100 * (((nonNaNSorted s.Plots).length : ℚ) + 1) - 1
        ≥ ((nonNaNSorted s.Plots).length : ℚ) := by
      rw [hlen]; exact hr
    refine ⟨by rw [hopen]; exact percLoop_high _ _ _ hne hr2,
      fun x hx => le_getLastD_of_pairwise _ hpw x ((hpm x).mpr hx),
      (hpm _).mp (getLastD_mem _ hne)⟩
  · intro h1 h2
    have h1s : 1 ≤ p / 100 * (((nonNaNSorted s.Plots).length : ℚ) + 1) := by
      rw [hlen]; exact h1
    have h2s : p / 100 * (((nonNaNSorted s.Plots).length : ℚ) + 1)
        < ((nonNaNSorted s.Plots).length : ℚ) := by
      rw [hlen]; exact h2
    rw [hopen, percLoop_interp _ _ _ h1s h2s, hlen]
  · intro h1 h2
    have h1s : 0 < p / 100 * (((nonNaNSorted s.Plots).length : ℚ) + 1) := by
      rw [hlen]; exact h1
    have h2s : p / 100 * (((nonNaNSorted s.Plots).length : ℚ) + 1) < 1 := by
      rw [hlen]; exact h2
    rw [hopen, percLoop_panic_under _ _ _ h1s h2s]
  · intro h1 h2
    have h1s : ((nonNaNSorted s.Plots).length : ℚ)
        ≤ p / 100 * (((nonNaNSorted s.Plots).length : ℚ) + 1) := by
      rw [hlen]; exact h1
    have h2s : p / 100 * (((nonNaNSorted s.Plots).length : ℚ) + 1)
        < ((nonNaNSorted s.Plots).length : ℚ) + 1 := by
      rw [hlen]; exact h2
    rw [hopen, percLoop_panic_over _ _ _ hne h1s h2s]

/-- C4 witness: the claim's own interpolation example — percentile 50
over values [10,20,30,40] (rank 2.5) stores 25 under key "50th". -/
theorem percentiles_rank_rule_witness :
    Series.Percentiles
        ⟨"", [⟨0, Value.num 10⟩, ⟨1, Value.num 20⟩, ⟨2, Value.num 30⟩, ⟨3, Value.num 40⟩], 0, []⟩
        [50] = .ok [("50th", Value.num 25)] := by
  have hset : nonNaNSet
      [⟨0, Value.num 10⟩, ⟨1, Value.num 20⟩, ⟨2, Value.num 30⟩, ⟨3, Value.num 40⟩]
      = [10, 20, 30, 40] := by simp [nonNaNSet]
  have h := (percentiles_rank_rule
      ⟨"", [⟨0, Value.num 10⟩, ⟨1, Value.num 20⟩, ⟨2, Value.num 30⟩, ⟨3, Value.num 40⟩], 0, []⟩
      50 (by decide)).2.2.1
    (by rw [hset]; norm_num) (by rw [hset]; norm_num)
  rw [h]
  have hsortv : nonNaNSorted
      [⟨0, Value.num 10⟩, ⟨1, Value.num 20⟩, ⟨2, Value.num 30⟩, ⟨3, Value.num 40⟩]
      = [10, 20, 30, 40] := by
    rw [nonNaNSorted, hset]
    exact List.mergeSort_eq_self (by decide)
  have hfl : ⌊(50 : ℚ) / 100 * (((([10, 20, 30, 40] : List ℚ)).length : ℚ) + 1)⌋ = 2 := by
    norm_num
  have hkey : percentileString (50 : ℚ) = "50th" := by
    have h2 : ratTrunc ((50 : ℚ)) = 50 := by
      rw [ratTrunc_eq_floor _ (by norm_num)]; norm_num
    norm_num [percentileString, sprintfG, sprintfGNonneg, h2]
    decide
  rw [hsortv, hset, hfl, hkey]
  have h30 : ([10, 20, 30, 40] : List ℚ)[Int.toNat 2] = 30 := by decide
  norm_num [mapSet, h30]

/-- C4 counterexample: percentile 90 over [10,20,30,40] has rank 4.5,
so the code reads set[4] on a 4-element set — a runtime panic instead
of the value the claimed rank rule requires. -/
theorem percentiles_90_out_of_range :
    Series.Percentiles
        ⟨"", [⟨0, Value.num 10⟩, ⟨1, Value.num 20⟩, ⟨2, Value.num 30⟩, ⟨3, Value.num 40⟩], 0, []⟩
        [90] = .panic "index out of range" ∧
    0 < (nonNaNSet
        [⟨0, Value.num 10⟩, ⟨1, Value.num 20⟩, ⟨2, Value.num 30⟩, ⟨3, Value.num 40⟩]).length := by
  have hset : nonNaNSet
      [⟨0, Value.num 10⟩, ⟨1, Value.num 20⟩, ⟨2, Value.num 30⟩, ⟨3, Value.num 40⟩]
      = [10, 20, 30, 40] := by simp [nonNaNSet]
  constructor
  · rw [Series.Percentiles, percentilesOn]
    rw [if_neg (by simp), if_neg (by rw [hset]; simp)]
    have hsortv : ([10, 20, 30, 40] : List ℚ).mergeSort (fun a b => decide (a ≤ b))
        = [10, 20, 30, 40] := List.mergeSort_eq_self (by decide)
    rw [hset, hsortv]
    apply percLoop_panic_over _ _ _ (by decide) <;> norm_num
  · rw [hset]; decide

theorem prepareLoop_all_same (env : ServerEnv) (plotReq : PlotRequest)
    (lst : List SerieItem) (b0 : ℕ) (acc : List SerieQuery)
    (h : ∀ it ∈ lst, env.origins it.Origin = some b0) :
    prepareLoop env plotReq lst (some b0) acc =
      .ok (acc ++ lst.flatMap (serieEntriesFor env plotReq), some b0) := by
  induction lst generalizing acc with
  | nil => simp [prepareLoop]
  | cons it rest ih =>
    have hit := h it (by simp)
    simp only [prepareLoop, hit, if_pos rfl, if_true,
      ih _ (fun x hx => h x (by simp [hx])), List.flatMap_cons, List.append_assoc]

theorem prepareLoop_conflict (env : ServerEnv) (plotReq : PlotRequest)
    (lst : List SerieItem) (b0 : ℕ) (acc : List SerieQuery)
    (hk : ∀ it ∈ lst, (env.origins it.Origin).isSome = true)
    (h : ∃ it ∈ lst, env.origins it.Origin ≠ some b0) :
    ∃ e, prepareLoop env plotReq lst (some b0) acc = .error e := by
  induction lst generalizing acc with
  | nil => simp at h
  | cons it rest ih =>
    obtain ⟨x, hxmem, hxne⟩ := h
    rcases Option.isSome_iff_exists.mp (hk it (by simp)) with ⟨b, hb⟩
    by_cases hbb : b0 = b
    · subst hbb
      rcases List.mem_cons.mp hxmem with rfl | hxr
      · exact absurd hb hxne
      · simp only [prepareLoop, hb, if_pos rfl]
        exact ih _ (fun y hy => hk y (by simp [hy])) ⟨x, hxr, hxne⟩
    · refine ⟨"backends differ between series", ?_⟩
      simp only [prepareLoop, hb, if_neg hbb]

/-- C9 (amended): with every referenced origin known, plotPrepareQuery
fails exactly when the group's series resolve to more than one owning
backend (identity comparison) *or* the group expands to zero serie
queries (empty group, or source/metric groups expanding to nothing —
"no serie defined"); on success the query it returns for dispatch
carries the group's expanded serie queries and the single backend
shared by every series of the group. -/
theorem plotPrepareQuery_conditions (env : ServerEnv) (plotReq : PlotRequest)
    (groupItem : OperGroup)
    (hk : ∀ it ∈ groupItem.Series, (env.origins it.Origin).isSome = true) :
    ((∃ e, plotPrepareQuery env plotReq groupItem = .error e) ↔
      (¬ sharedBackend env groupItem ∨ expandedEntries env plotReq groupItem = [])) ∧
    (∀ q b, plotPrepareQuery env plotReq groupItem = .ok (q, b) →
      q.Series = expandedEntries env plotReq groupItem ∧
      ∀ it ∈ groupItem.Series, env.origins it.Origin = b) := by
  rcases hgs : groupItem.Series with _ | ⟨it0, rest⟩
  · constructor
    · constructor
      · intro _
        right
        simp [expandedEntries, hgs]
      · intro _
        refine ⟨"no serie defined", ?_⟩
        simp [plotPrepareQuery, hgs, prepareLoop]
    · intro q b hq
      simp [plotPrepareQuery, hgs, prepareLoop] at hq
  · rcases Option.isSome_iff_exists.mp (hk it0 (by simp [hgs])) with ⟨b0, hb0⟩
    by_cases hall : ∀ x ∈ rest, env.origins x.Origin = some b0
    · have hloop : prepareLoop env plotReq (it0 :: rest) none [] =
          .ok (expandedEntries env plotReq groupItem, some b0) := by
        simp only [prepareLoop, hb0, List.nil_append]
        rw [prepareLoop_all_same env plotReq rest b0 _ hall]
        simp [expandedEntries, hgs, List.flatMap_cons]
      have hshared : sharedBackend env groupItem := by
        refine ⟨b0, ?_⟩
        rw [hgs]
        intro x hx
        rcases List.mem_cons.mp hx with rfl | hxr
        · exact hb0
        · exact hall x hxr
      have hplot : plotPrepareQuery env plotReq groupItem =
          (if (expandedEntries env plotReq groupItem).length = 0
           then .error "no serie defined"
           else .ok (⟨groupItem.Name, groupItem.«Type», groupItem.Scale,
             expandedEntries env plotReq groupItem⟩, some b0)) := by
        rw [plotPrepareQuery, hgs, hloop]
      constructor
      · constructor
        · intro ⟨e, he⟩
          rw [hplot] at he
          by_cases hemp : (expandedEntries env plotReq groupItem).length = 0
          · right
            exact List.length_eq_zero.mp hemp
          · rw [if_neg hemp] at he
            exact absurd he (by simp)
        · rintro (hns | hemp)
          · exact absurd hshared hns
          · refine ⟨"no serie defined", ?_⟩
            rw [hplot, if_pos (by simp [hemp])]
      · intro q b hq
        rw [hplot] at hq
        by_cases hemp : (expandedEntries env plotReq groupItem).length = 0
        · rw [if_pos hemp] at hq
          exact absurd hq (by simp)
        · rw [if_neg hemp] at hq
          simp only [Except.ok.injEq, Prod.mk.injEq] at hq
          obtain ⟨hq1, hq2⟩ := hq
          refine ⟨by rw [← hq1], ?_⟩
          intro x hx
          rw [← hq2]
          rcases List.mem_cons.mp hx with rfl | hxr
          · exact hb0
          · exact hall x hxr
    · push_neg at hall
      obtain ⟨x, hxmem, hxne⟩ := hall
      have hconf := prepareLoop_conflict env plotReq rest b0
        (serieEntriesFor env plotReq it0)
        (fun y hy => hk y (by simp [hgs, hy])) ⟨x, hxmem, hxne⟩
      obtain ⟨e, he⟩ := hconf
      have hloop : prepareLoop env plotReq (it0 :: rest) none [] = .error e := by
        simp only [prepareLoop, hb0, List.nil_append]
        exact he
      have hnoshare : ¬ sharedBackend env groupItem := by
        rintro ⟨b2, hb2⟩
        rw [hgs] at hb2
        have h1 : env.origins it0.Origin = some b2 := hb2 it0 (by simp)
        have hb2b0 : b2 = b0 := by
          rw [hb0] at h1
          exact (Option.some.injEq _ _ ▸ h1).symm
        exact hxne (hb2b0 ▸ hb2 x (by simp [hxmem]))
      have hplot : plotPrepareQuery env plotReq groupItem = .error e := by
        rw [plotPrepareQuery, hgs, hloop]
      constructor
      · constructor
        · intro _
          exact Or.inl hnoshare
        · intro _
          exact ⟨e, hplot⟩
      · intro q b hq
        rw [hplot] at hq
        exact absurd hq (by simp)

/-- C9 witness: the theorem instantiated at a one-series group whose
origin is known — no error, and the query is dispatched to backend 7. -/
theorem plotPrepareQuery_conditions_witness :
    (∀ it ∈ demoGroup.Series, (demoEnv.origins it.Origin).isSome = true) ∧
    (((∃ e, plotPrepareQuery demoEnv demoRequest demoGroup = .error e) ↔
      (¬ sharedBackend demoEnv demoGroup ∨
        expandedEntries demoEnv demoRequest demoGroup = [])) ∧
    (∀ q b, plotPrepareQuery demoEnv demoRequest demoGroup = .ok (q, b) →
      q.Series = expandedEntries demoEnv demoRequest demoGroup ∧
      ∀ it ∈ demoGroup.Series, demoEnv.origins it.Origin = b)) :=
  ⟨by decide, plotPrepareQuery_conditions demoEnv demoRequest demoGroup (by decide)⟩

/-- C9 counterexample: a group with no series spans zero (hence not
more than one) backends, yet plotPrepareQuery fails with
"no serie defined" — failure is not equivalent to a backend conflict. -/
theorem plotPrepareQuery_empty_group_error :
    plotPrepareQuery demoEnv demoRequest ⟨"g", 2, 1, []⟩ = .error "no serie defined" ∧
    sharedBackend demoEnv ⟨"g", 2, 1, []⟩ := by
  constructor
  · rfl
  · exact ⟨7, by simp⟩
